import Mathlib

/-!
Verification of the conversation-lifecycle core of the AxisDiscordBot repository.

The registry of active conversations (`Handler.active_conversations` in
`src/bot.rs`, a `DashMap<ChannelId, ConversationState>`) is modelled as an
association list with unique keys; channel ids, user ids and instants are
modelled as natural numbers (instants in seconds, monotone). The registry
operations `start_conversation`, `update_conversation`, `end_conversation`,
`cleanup_expired_conversations`, `has_active_conversation` and the message
handler `Handler::message` are translated from `src/bot.rs`; the intent
heuristics and the response truncation are translated from `src/ai/mod.rs`.
-/

/-- ConversationState from src/bot.rs: the single user in dialogue in a
channel, and the instant of the last activity. -/
structure ConversationState where
  user_id : Nat
  last_activity : Nat
  deriving DecidableEq, Repr

/-- ConversationState::is_expired from src/bot.rs: the elapsed time since the
last activity exceeds `timeout_minutes * 60` seconds. `now - last_activity`
models `Instant::elapsed`. -/
def ConversationState.is_expired (st : ConversationState) (now timeout_minutes : Nat) : Bool :=
  now - st.last_activity > timeout_minutes * 60

/-- The conversation registry `DashMap<ChannelId, ConversationState>`,
modelled as an association list from channel id to state. -/
abbrev Registry := List (Nat × ConversationState)

/-- Keys of a registry are unique: the representation invariant of the
backing `DashMap`. -/
def keysNodup (r : Registry) : Prop :=
  (r.map Prod.fst).Nodup

instance (r : Registry) : Decidable (keysNodup r) := by
  unfold keysNodup; infer_instance

/-- DashMap::get on the registry. -/
def get_conversation (ch : Nat) (r : Registry) : Option ConversationState :=
  (r.find? (fun e => e.1 == ch)).map Prod.snd

/-- DashMap::remove on the registry: drop the entry keyed by `ch`. -/
def regRemove (ch : Nat) (r : Registry) : Registry :=
  r.filter (fun e => !(e.1 == ch))

/-- DashMap::insert on the registry: bind `ch` to `st`, replacing any prior
entry. -/
def regInsert (ch : Nat) (st : ConversationState) (r : Registry) : Registry :=
  (ch, st) :: regRemove ch r

/-- Handler::start_conversation from src/bot.rs: insert a fresh state for the
user with `last_activity = now`. -/
def start_conversation (ch u now : Nat) (r : Registry) : Registry :=
  regInsert ch ⟨u, now⟩ r

/-- Handler::update_conversation from src/bot.rs: if the channel's entry
belongs to the user, refresh `last_activity` and return true; if it belongs
to a different user, remove it and return false; otherwise return false and
leave the registry unchanged. -/
def update_conversation (ch u now : Nat) (r : Registry) : Bool × Registry :=
  match r.find? (fun e => e.1 == ch) with
  | some e =>
    if e.2.user_id == u then
      (true, r.map (fun e2 => if e2.1 == ch then (e2.1, { e2.2 with last_activity := now }) else e2))
    else
      (false, regRemove ch r)
  | none => (false, r)

/-- Handler::end_conversation from src/bot.rs: remove the channel's entry iff
it belongs to the user; return whether removal occurred. -/
def end_conversation (ch u : Nat) (r : Registry) : Bool × Registry :=
  match r.find? (fun e => e.1 == ch) with
  | some e => if e.2.user_id == u then (true, regRemove ch r) else (false, r)
  | none => (false, r)

/-- Handler::has_active_conversation from src/bot.rs: an entry exists for the
channel and belongs to the user. -/
def has_active_conversation (ch u : Nat) (r : Registry) : Bool :=
  (Option.map (fun st => st.user_id == u) (get_conversation ch r)).getD false

/-- Handler::cleanup_expired_conversations from src/bot.rs (the sweep): drop
every entry whose state is expired, keep the rest. The source collects the
expired keys and removes each; on a registry with unique keys that is this
filter. The source hardcodes `timeout_minutes = 30`. -/
def cleanup_expired_conversations (now timeout_minutes : Nat) (r : Registry) : Registry :=
  r.filter (fun e => !(e.2.is_expired now timeout_minutes))

/-- Operations of the conversation registry, as invoked by the handler. -/
inductive RegOp where
  | start (ch u now : Nat)
  | touch (ch u now : Nat)
  | endConv (ch u : Nat)
  | sweep (now timeout_minutes : Nat)

/-- Apply one registry operation. -/
def applyOp (r : Registry) : RegOp → Registry
  | .start ch u now => start_conversation ch u now r
  | .touch ch u now => (update_conversation ch u now r).2
  | .endConv ch u => (end_conversation ch u r).2
  | .sweep now t => cleanup_expired_conversations now t r

/-- Apply a sequence of registry operations, oldest first. -/
def applyOps (ops : List RegOp) (r : Registry) : Registry :=
  ops.foldl applyOp r

/-- Whitespace trimming on both ends, modelling `str::trim`. -/
def trimChars (s : List Char) : List Char :=
  ((s.dropWhile Char.isWhitespace).reverse.dropWhile Char.isWhitespace).reverse

/-- Case folding, modelling `str::to_lowercase` (ASCII-faithful). -/
def lowerList (s : List Char) : List Char :=
  s.map Char.toLower

/-- Substring containment, modelling `str::contains(&str)`: `needle` occurs
contiguously in `hay`. -/
def containsSub (hay needle : List Char) : Bool :=
  match hay with
  | [] => needle.isEmpty
  | c :: t => needle.isPrefixOf (c :: t) || containsSub t needle

/-- An apostrophe, kept out of string literals. -/
def aposChar : Char := Char.ofNat 39

/-- GeminiClient::fallback_should_respond from src/ai/mod.rs: lowercase and
trim the content, then respond iff it contains any of the twelve trigger
substrings built from the bot name and the fixed keyword vocabulary. -/
def fallback_should_respond (content bot_name : String) : Bool :=
  let content_lower := trimChars (lowerList content.toList)
  let bot_name_lower := lowerList bot_name.toList
  let triggers : List (List Char) :=
    ["hey ".toList ++ bot_name_lower,
     "hi ".toList ++ bot_name_lower,
     "hello ".toList ++ bot_name_lower,
     bot_name_lower ++ " help".toList,
     "help ".toList ++ bot_name_lower,
     bot_name_lower,
     "roblox".toList,
     "luau".toList,
     "script".toList,
     "scripting".toList,
     "help me".toList,
     "can you".toList]
  triggers.any (fun trigger => containsSub content_lower trigger)

/-- Modelled from the spec: the three-clause decision rule that the
specification states for `should_start` (direct mention, or help phrase plus
domain keyword, or length over 10 plus domain keyword plus question mark),
written from the spec wording to be compared against the source function
`fallback_should_respond`. -/
def should_start_spec_rule (content bot_name : String) : Bool :=
  let c := trimChars (lowerList content.toList)
  let b := lowerList bot_name.toList
  let mention :=
    [b, "hey ".toList ++ b, "hi ".toList ++ b, "hello ".toList ++ b,
     b ++ " help".toList, "help ".toList ++ b].any (fun p => containsSub c p)
  let domain :=
    ["roblox".toList, "luau".toList, "script".toList, "scripting".toList].any
      (fun p => containsSub c p)
  let helpPhrase :=
    ["help me".toList, "how do i".toList, "can you".toList, "what is".toList,
     "explain".toList].any (fun p => containsSub c p)
  mention || (helpPhrase && domain) || (decide (c.length > 10) && domain && c.contains '?')

/-- Farewell phrases of the termination heuristic (spec section 4.2). -/
def farewell_phrases : List (List Char) :=
  ["bye".toList, "goodbye".toList, "stop".toList, "done".toList, "nevermind".toList]

/-- Thanks tokens of the termination heuristic (spec section 4.2). -/
def thanks_tokens : List (List Char) :=
  ["thank".toList, "thx".toList, " ty ".toList]

/-- Exclusion substrings of the termination heuristic (spec section 4.2). -/
def stop_exclusions : List (List Char) :=
  ["how".toList, "what".toList, "can you".toList, "help".toList]

/-- Termination heuristic on the case-folded trimmed content: a farewell
phrase equals the content, starts it followed by a space, or ends it preceded
by a space; or a thanks token occurs with no question mark, no exclusion
substring, and length below 50. -/
def should_stop_core (c : List Char) : Bool :=
  let farewellHit := farewell_phrases.any
    (fun p => c == p || (p ++ [' ']).isPrefixOf c || ([' '] ++ p).isSuffixOf c)
  let thanksHit := thanks_tokens.any (fun t => containsSub c t)
  let excluded := stop_exclusions.any (fun t => containsSub c t)
  farewellHit || (thanksHit && !(c.contains '?') && !excluded && decide (c.length < 50))

/-- Modelled from the spec: the synchronous local heuristic
`should_stop_conversation` that `Handler::message` in src/bot.rs invokes; the
`src/ai/mod.rs` present under src/ is a different iteration of the file that
exposes only the asynchronous remote variant, so the local heuristic is
modelled from spec section 4.2 (content case-folded and trimmed). -/
def should_stop_conversation_local (content : String) : Bool :=
  should_stop_core (lowerList (trimChars content.toList))

/-- GeminiClient::generate_response from src/ai/mod.rs, its delivered-text
computation: the generated text unchanged when within the 2000-character
Discord limit, otherwise the first 1997 characters with a truncation
marker appended. -/
def generate_response_text (text : String) : String :=
  if text.length > 2000 then String.mk (text.data.take 1997 ++ "...".data) else text

/-- Outcome of one remote classification HTTP call, as distinguished by the
source: the send itself fails (network error or timeout); the response has a
non-success status; the body fails to parse as JSON; or the body parses, the
extracted candidate text present or absent. -/
inductive ClassifyOutcome where
  | sendFailure
  | httpError
  | badJson
  | parsed (text : Option String)

/-- Trim then uppercase, modelling `str::trim().to_uppercase()`. -/
def upperTrim (s : String) : List Char :=
  (trimChars s.toList).map Char.toUpper

namespace GeminiClient

/-- GeminiClient::should_respond_to_message from src/ai/mod.rs: answer true
at once when the passed active-conversation map binds the channel to the
author; otherwise decide by the remote call, parsing YES from the text and
falling back to `fallback_should_respond` when the send fails, the status is
not a success, or the body fails to parse. -/
def should_respond_to_message (content bot_name : String) (author_id channel_id : Nat)
    (active_conversations : List (Nat × Nat)) (outcome : ClassifyOutcome) :
    Except String Bool :=
  if (Option.map (fun e => e.2 == author_id)
      (active_conversations.find? (fun e => e.1 == channel_id))).getD false then
    .ok true
  else
    match outcome with
    | .parsed text => .ok (upperTrim (text.getD "NO") == "YES".toList)
    | .badJson => .ok (fallback_should_respond content bot_name)
    | .sendFailure => .ok (fallback_should_respond content bot_name)
    | .httpError => .ok (fallback_should_respond content bot_name)

/-- GeminiClient::should_stop_conversation from src/ai/mod.rs (the remote
variant present under src/): a failed send propagates an error through the
`context(..)?` operator, a non-success status yields `Ok(false)`, an
unparseable body propagates an error, and a parsed body yields the YES
comparison with NO as the default text. -/
def should_stop_conversation (outcome : ClassifyOutcome) : Except String Bool :=
  match outcome with
  | .sendFailure => .error "Failed to send conversation analysis request"
  | .httpError => .ok false
  | .badJson => .error "Failed to parse conversation analysis response"
  | .parsed text => .ok (upperTrim (text.getD "NO") == "YES".toList)

end GeminiClient

/-- Error categories of response generation, as distinguished by the handler
on the error string: a timeout, a Gemini API error, or anything else. -/
inductive GenErrCat where
  | timeout
  | apiError
  | unknown

/-- Outcome of one generation call: the raw generated text, or an error of
one of the three categories. -/
inductive GenOutcome where
  | ok (text : String)
  | err (cat : GenErrCat)

/-- The three fixed fallback replies of Handler::message in src/bot.rs,
selected by error category. -/
def fallback_message : GenErrCat → String
  | .timeout => "Request timed out. Please try again."
  | .apiError => "I" ++ String.mk [aposChar] ++ "m experiencing technical difficulties. Please try again later."
  | .unknown => "I" ++ String.mk [aposChar] ++ "m having trouble processing your request right now."

/-- The closure reply sent when a conversation is ended on stop intent. -/
def closure_reply : String :=
  "Conversation ended. Feel free to reach out again if you need assistance with Roblox development."

/-- One inbound gateway message, as consumed by Handler::message. -/
structure MsgInput where
  author_is_bot : Bool
  content : String
  channel_id : Nat
  author_id : Nat
  now : Nat

/-- Result of one Handler::message run: the registry afterwards, the replies
the handler attempted to send, and whether generation was invoked. -/
structure HandleResult where
  registry : Registry
  replies : List String
  generationInvoked : Bool
  deriving DecidableEq, Repr

/-- Handler::message from src/bot.rs, sequentially (one in-flight message):
bot authors are ignored; the `!sync_all` administrative path never touches
the registry nor invokes generation (its own command-sync replies are outside
the conversation core); otherwise sweep expired entries, detect stop intent
for the active owner (remove, send the closure reply, terminate), else
refresh activity, decide response, start a conversation when none is active,
and on generation or delivery failure send the categorised fallback and evict
the channel entry. `shouldRespondResult` is the classifier verdict consumed
when no conversation is active, `gen` the generation outcome, `deliverOk`
whether the reply send succeeds. The owner re-check inside the stop branch of
the source always passes sequentially, the lookup being unchanged. -/
def handleMessage (inp : MsgInput) (shouldRespondResult : Bool)
    (gen : GenOutcome) (deliverOk : Bool) (r : Registry) : HandleResult :=
  if inp.author_is_bot then ⟨r, [], false⟩
  else if trimChars inp.content.toList == "!sync_all".toList then ⟨r, [], false⟩
  else
    let r1 := cleanup_expired_conversations inp.now 30 r
    let hasActive := has_active_conversation inp.channel_id inp.author_id r1
    if hasActive && should_stop_conversation_local inp.content then
      ⟨regRemove inp.channel_id r1, [closure_reply], false⟩
    else
      let r2 := if hasActive then
          r1.map (fun e =>
            if e.1 == inp.channel_id && e.2.user_id == inp.author_id then
              (e.1, { e.2 with last_activity := inp.now })
            else e)
        else r1
      if hasActive || shouldRespondResult then
        let r3 := if !hasActive then regInsert inp.channel_id ⟨inp.author_id, inp.now⟩ r2 else r2
        match gen with
        | .ok text =>
          if deliverOk then ⟨r3, [generate_response_text text], true⟩
          else ⟨regRemove inp.channel_id r3, [generate_response_text text], true⟩
        | .err cat => ⟨regRemove inp.channel_id r3, [fallback_message cat], true⟩
      else ⟨r2, [], false⟩

/-! Registry lemmas. -/

theorem get_regRemove_self (ch : Nat) (r : Registry) :
    get_conversation ch (regRemove ch r) = none := by
  have h : (regRemove ch r).find? (fun e => e.1 == ch) = none := by
    rw [List.find?_eq_none]
    intro e he
    have := (List.mem_filter.mp he).2
    simp_all
  simp [get_conversation, h]

theorem get_regRemove_ne (ch ch2 : Nat) (r : Registry) (h : ch2 ≠ ch) :
    get_conversation ch2 (regRemove ch r) = get_conversation ch2 r := by
  induction r with
  | nil => rfl
  | cons a t ih =>
    by_cases hc : a.1 = ch
    · have h1 : regRemove ch (a :: t) = regRemove ch t := by
        simp [regRemove, List.filter_cons, hc]
      have h2 : get_conversation ch2 (a :: t) = get_conversation ch2 t := by
        unfold get_conversation
        rw [List.find?_cons_of_neg]
        simp [hc]
        exact fun e => h e.symm
      rw [h1, h2]
      exact ih
    · have h1 : regRemove ch (a :: t) = a :: regRemove ch t := by
        simp [regRemove, List.filter_cons, hc]
      by_cases hc2 : a.1 = ch2
      · unfold get_conversation
        rw [h1, List.find?_cons_of_pos _ (by simp [hc2]), List.find?_cons_of_pos _ (by simp [hc2])]
      · unfold get_conversation at ih ⊢
        rw [h1, List.find?_cons_of_neg _ (by simp [hc2]), List.find?_cons_of_neg _ (by simp [hc2])]
        exact ih

theorem not_mem_keys_regRemove (ch : Nat) (r : Registry) :
    ch ∉ (regRemove ch r).map Prod.fst := by
  intro hmem
  obtain ⟨e, he, hfst⟩ := List.mem_map.mp hmem
  have h2 := (List.mem_filter.mp he).2
  simp [hfst] at h2

theorem keysNodup_regRemove (ch : Nat) (r : Registry) (h : keysNodup r) :
    keysNodup (regRemove ch r) :=
  List.Nodup.sublist ((List.filter_sublist r).map Prod.fst) h

theorem keysNodup_regInsert (ch : Nat) (st : ConversationState) (r : Registry)
    (h : keysNodup r) : keysNodup (regInsert ch st r) := by
  unfold keysNodup regInsert
  rw [List.map_cons]
  exact List.nodup_cons.mpr ⟨not_mem_keys_regRemove ch r, keysNodup_regRemove ch r h⟩

theorem map_update_keys (ch now : Nat) (r : Registry) :
    (r.map (fun e2 => if e2.1 == ch then (e2.1, { e2.2 with last_activity := now }) else e2)).map
      Prod.fst = r.map Prod.fst := by
  rw [List.map_map]
  apply List.map_congr_left
  intro e _
  by_cases he : e.1 = ch <;> simp [he]

theorem keysNodup_update_conversation (ch u now : Nat) (r : Registry) (h : keysNodup r) :
    keysNodup (update_conversation ch u now r).2 := by
  unfold update_conversation
  cases hf : r.find? (fun e => e.1 == ch) with
  | none => exact h
  | some e =>
    by_cases he : e.2.user_id = u
    · simp only [he, beq_self_eq_true, if_true]
      unfold keysNodup
      rw [map_update_keys]
      exact h
    · simp only [beq_iff_eq, he, if_false]
      exact keysNodup_regRemove ch r h

theorem keysNodup_end_conversation (ch u : Nat) (r : Registry) (h : keysNodup r) :
    keysNodup (end_conversation ch u r).2 := by
  unfold end_conversation
  cases hf : r.find? (fun e => e.1 == ch) with
  | none => exact h
  | some e =>
    by_cases he : e.2.user_id = u
    · simp only [he, beq_self_eq_true, if_true]
      exact keysNodup_regRemove ch r h
    · simp only [beq_iff_eq, he, if_false]
      exact h

theorem keysNodup_cleanup (now t : Nat) (r : Registry) (h : keysNodup r) :
    keysNodup (cleanup_expired_conversations now t r) :=
  List.Nodup.sublist ((List.filter_sublist r).map Prod.fst) h

theorem keysNodup_applyOp (r : Registry) (op : RegOp) (h : keysNodup r) :
    keysNodup (applyOp r op) := by
  cases op with
  | start ch u now => exact keysNodup_regInsert ch ⟨u, now⟩ r h
  | touch ch u now => exact keysNodup_update_conversation ch u now r h
  | endConv ch u => exact keysNodup_end_conversation ch u r h
  | sweep now t => exact keysNodup_cleanup now t r h

theorem keysNodup_applyOps (ops : List RegOp) (r : Registry) (h : keysNodup r) :
    keysNodup (applyOps ops r) := by
  induction ops generalizing r with
  | nil => exact h
  | cons op ops ih => exact ih (applyOp r op) (keysNodup_applyOp r op h)

theorem length_filter_key_le_one (ch : Nat) (r : Registry) (h : keysNodup r) :
    (r.filter (fun e => e.1 == ch)).length ≤ 1 := by
  induction r with
  | nil => simp
  | cons a t ih =>
    have h2 : (a.1 :: t.map Prod.fst).Nodup := by
      have h3 := h
      unfold keysNodup at h3
      rwa [List.map_cons] at h3
    have hn := List.nodup_cons.mp h2
    by_cases hc : a.1 = ch
    · have hnone : t.filter (fun e => e.1 == ch) = [] := by
        rw [List.filter_eq_nil_iff]
        intro x hx
        simp only [beq_iff_eq]
        intro hxc
        exact hn.1 (List.mem_map.mpr ⟨x, hx, hxc.trans hc.symm⟩)
      simp [List.filter_cons, hc, hnone]
    · simp only [List.filter_cons, beq_iff_eq, hc, if_false]
      exact ih hn.2

/-- C1: under any sequence of start, touch (update_conversation), end
(end_conversation) and sweep (cleanup_expired_conversations) operations from
the empty registry, every channel id carries at most one ConversationState
entry: at most one active user per channel at any time. -/
theorem registry_at_most_one_state_per_channel (ops : List RegOp) (ch : Nat) :
    ((applyOps ops []).filter (fun e => e.1 == ch)).length ≤ 1 :=
  length_filter_key_le_one ch (applyOps ops [])
    (keysNodup_applyOps ops [] (by simp [keysNodup]))

theorem get_map_update_self (ch now : Nat) (r : Registry) (st : ConversationState)
    (h : get_conversation ch r = some st) :
    get_conversation ch
      (r.map (fun e2 => if e2.1 == ch then (e2.1, { e2.2 with last_activity := now }) else e2))
      = some ⟨st.user_id, now⟩ := by
  induction r with
  | nil => simp [get_conversation] at h
  | cons a t ih =>
    by_cases ha : a.1 = ch
    · have hst : st = a.2 := by
        unfold get_conversation at h
        rw [List.find?_cons_of_pos _ (by simp [ha])] at h
        simpa using h.symm
      unfold get_conversation
      rw [List.map_cons, if_pos (by simp [ha] : (a.1 == ch) = true)]
      rw [List.find?_cons_of_pos _ (by simp [ha])]
      simp [hst]
    · have h1 : get_conversation ch t = some st := by
        unfold get_conversation at h
        rwa [List.find?_cons_of_neg _ (by simp [ha])] at h
      unfold get_conversation at ih ⊢
      rw [List.map_cons, if_neg (by simp [ha] : ¬((a.1 == ch) = true))]
      rw [List.find?_cons_of_neg _ (by simp [ha])]
      exact ih h1

theorem get_map_update_ne (ch ch2 now : Nat) (r : Registry) (h : ch2 ≠ ch) :
    get_conversation ch2
      (r.map (fun e2 => if e2.1 == ch then (e2.1, { e2.2 with last_activity := now }) else e2))
      = get_conversation ch2 r := by
  induction r with
  | nil => rfl
  | cons a t ih =>
    by_cases ha2 : a.1 = ch2
    · have ha : ¬(a.1 = ch) := by rw [ha2]; exact h
      unfold get_conversation
      rw [List.map_cons, if_neg (by simp [ha] : ¬((a.1 == ch) = true))]
      rw [List.find?_cons_of_pos _ (by simp [ha2]), List.find?_cons_of_pos _ (by simp [ha2])]
    · unfold get_conversation at ih ⊢
      rw [List.map_cons]
      by_cases ha : a.1 = ch
      · rw [if_pos (by simp [ha] : (a.1 == ch) = true)]
        rw [List.find?_cons_of_neg _ (by simp [ha2]), List.find?_cons_of_neg _ (by simp [ha2])]
        exact ih
      · rw [if_neg (by simp [ha] : ¬((a.1 == ch) = true))]
        rw [List.find?_cons_of_neg _ (by simp [ha2]), List.find?_cons_of_neg _ (by simp [ha2])]
        exact ih

/-- C2: update_conversation (touch) returns true and only refreshes
last_activity to now when the channel's entry belongs to the user; when the
entry belongs to a different user it removes the entry and returns false, so
a subsequent get on the channel returns none; when no entry exists it returns
false and leaves the registry unchanged. Entries of other channels are
untouched in every case. -/
theorem update_conversation_spec (r : Registry) (ch u now : Nat) :
    (∀ st, get_conversation ch r = some st →
      (st.user_id = u →
        (update_conversation ch u now r).1 = true ∧
        get_conversation ch (update_conversation ch u now r).2 = some ⟨st.user_id, now⟩ ∧
        ∀ ch2, ch2 ≠ ch →
          get_conversation ch2 (update_conversation ch u now r).2 = get_conversation ch2 r) ∧
      (st.user_id ≠ u →
        (update_conversation ch u now r).1 = false ∧
        get_conversation ch (update_conversation ch u now r).2 = none ∧
        ∀ ch2, ch2 ≠ ch →
          get_conversation ch2 (update_conversation ch u now r).2 = get_conversation ch2 r))
    ∧ (get_conversation ch r = none → update_conversation ch u now r = (false, r)) := by
  constructor
  · intro st hst
    obtain ⟨e0, hfind, hsnd⟩ := Option.map_eq_some'.mp hst
    constructor
    · intro huser
      have hbeq : (e0.2.user_id == u) = true := by
        rw [hsnd]
        simp [huser]
      have hred : update_conversation ch u now r =
          (true, r.map (fun e2 => if e2.1 == ch then (e2.1, { e2.2 with last_activity := now }) else e2)) := by
        unfold update_conversation
        rw [hfind]
        simp [hbeq]
      refine ⟨by rw [hred], ?_, ?_⟩
      · rw [hred]
        exact get_map_update_self ch now r st hst
      · intro ch2 hne
        rw [hred]
        exact get_map_update_ne ch ch2 now r hne
    · intro huser
      have hbeq : ¬((e0.2.user_id == u) = true) := by
        rw [hsnd]
        simp [huser]
      have hred : update_conversation ch u now r = (false, regRemove ch r) := by
        unfold update_conversation
        rw [hfind]
        simp [hbeq]
      refine ⟨by rw [hred], ?_, ?_⟩
      · rw [hred]
        exact get_regRemove_self ch r
      · intro ch2 hne
        rw [hred]
        exact get_regRemove_ne ch ch2 r hne
  · intro hnone
    have hfind : r.find? (fun e => e.1 == ch) = none := Option.map_eq_none'.mp hnone
    unfold update_conversation
    rw [hfind]

/-- Witness for C2 at a concrete registry: touching channel 1 as its owner 5
succeeds. -/
theorem update_conversation_spec_witness :
    (update_conversation 1 5 10 [(1, ⟨5, 0⟩)]).1 = true :=
  (((update_conversation_spec [(1, ⟨5, 0⟩)] 1 5 10).1 ⟨5, 0⟩ (by decide)).1 rfl).1

theorem get_eq_none_of_not_mem_keys (ch : Nat) (r : Registry) (h : ch ∉ r.map Prod.fst) :
    get_conversation ch r = none := by
  have hfind : r.find? (fun e => e.1 == ch) = none := by
    rw [List.find?_eq_none]
    intro e he
    simp only [beq_iff_eq]
    exact fun hc => h (List.mem_map.mpr ⟨e, he, hc⟩)
  simp [get_conversation, hfind]

/-- C3: the sweep (cleanup_expired_conversations) removes exactly the entries
whose last_activity is older than the timeout and leaves every other entry
untouched, its user_id and last_activity unchanged: on a channel holding an
expired entry a subsequent get returns none, on a channel holding a live
entry it returns that very state, and on an empty channel it returns none. -/
theorem cleanup_expired_conversations_spec (r : Registry) (now timeout ch : Nat)
    (h : keysNodup r) :
    (∀ st, get_conversation ch r = some st →
      get_conversation ch (cleanup_expired_conversations now timeout r) =
        if st.is_expired now timeout then none else some st)
    ∧ (get_conversation ch r = none →
      get_conversation ch (cleanup_expired_conversations now timeout r) = none) := by
  induction r with
  | nil =>
    constructor
    · intro st hst
      simp [get_conversation] at hst
    · intro _
      rfl
  | cons a t ih =>
    have h2 : (a.1 :: t.map Prod.fst).Nodup := by
      have h3 := h
      unfold keysNodup at h3
      rwa [List.map_cons] at h3
    have hn := List.nodup_cons.mp h2
    have iht := ih hn.2
    by_cases ha : a.1 = ch
    · have hget : get_conversation ch (a :: t) = some a.2 := by
        unfold get_conversation
        rw [List.find?_cons_of_pos _ (by simp [ha])]
        rfl
      constructor
      · intro st hst
        have hst2 : st = a.2 := by
          rw [hget] at hst
          simpa using hst.symm
        by_cases hexp : a.2.is_expired now timeout = true
        · have hclean : cleanup_expired_conversations now timeout (a :: t) =
              cleanup_expired_conversations now timeout t := by
            simp [cleanup_expired_conversations, List.filter_cons, hexp]
          rw [hclean]
          have hnotmem : ch ∉ (cleanup_expired_conversations now timeout t).map Prod.fst := by
            intro hmem
            apply hn.1
            rw [← ha] at hmem
            exact ((List.filter_sublist t).map Prod.fst).subset hmem
          rw [get_eq_none_of_not_mem_keys ch _ hnotmem, hst2]
          simp [hexp]
        · have hclean : cleanup_expired_conversations now timeout (a :: t) =
              a :: cleanup_expired_conversations now timeout t := by
            simp [cleanup_expired_conversations, List.filter_cons, hexp]
          rw [hclean]
          unfold get_conversation
          rw [List.find?_cons_of_pos _ (by simp [ha])]
          rw [hst2]
          simp [hexp]
      · intro hnone
        rw [hget] at hnone
        exact absurd hnone (by simp)
    · have hget : get_conversation ch (a :: t) = get_conversation ch t := by
        unfold get_conversation
        rw [List.find?_cons_of_neg _ (by simp [ha])]
      have hcleanget : get_conversation ch (cleanup_expired_conversations now timeout (a :: t)) =
          get_conversation ch (cleanup_expired_conversations now timeout t) := by
        by_cases hexp : a.2.is_expired now timeout = true
        · simp [cleanup_expired_conversations, List.filter_cons, hexp]
        · have hclean : cleanup_expired_conversations now timeout (a :: t) =
              a :: cleanup_expired_conversations now timeout t := by
            simp [cleanup_expired_conversations, List.filter_cons, hexp]
          rw [hclean]
          unfold get_conversation
          rw [List.find?_cons_of_neg _ (by simp [ha])]
      constructor
      · intro st hst
        rw [hcleanget]
        exact iht.1 st (by rwa [hget] at hst)
      · intro hnone
        rw [hcleanget]
        exact iht.2 (by rwa [hget] at hnone)

/-- Witness for C3 at a concrete registry: with now = 1900 and a 30-minute
timeout, the entry last active at instant 0 is swept while the entry last
active at instant 200 survives unchanged. -/
theorem cleanup_expired_conversations_spec_witness :
    get_conversation 1 (cleanup_expired_conversations 1900 30 [(1, ⟨5, 0⟩), (2, ⟨6, 200⟩)]) = none
    ∧ get_conversation 2 (cleanup_expired_conversations 1900 30 [(1, ⟨5, 0⟩), (2, ⟨6, 200⟩)]) =
        some ⟨6, 200⟩ := by
  constructor
  · have h := (cleanup_expired_conversations_spec [(1, ⟨5, 0⟩), (2, ⟨6, 200⟩)] 1900 30 1
      (by decide)).1 ⟨5, 0⟩ (by decide)
    rw [h]
    decide
  · have h := (cleanup_expired_conversations_spec [(1, ⟨5, 0⟩), (2, ⟨6, 200⟩)] 1900 30 2
      (by decide)).1 ⟨6, 200⟩ (by decide)
    rw [h]
    decide

/-- The spec example message with an apostrophe, built without an apostrophe
literal. -/
def lunch_example : String := "what" ++ String.mk [aposChar] ++ "s for lunch"

/-- C4 counterexample: on the message "can you" with bot name "axis" the
source fallback responds, the bare help phrase "can you" being in its trigger
list, while the three-clause rule stated by the claim does not respond: no
mention pattern or domain keyword occurs and the length is not over 10. -/
theorem fallback_should_respond_counterexample :
    fallback_should_respond "can you" "axis" = true ∧
    should_start_spec_rule "can you" "axis" = false := by
  decide

/-- C4 amended: fallback_should_respond answers true exactly when the
lowercased trimmed content contains one of its twelve trigger substrings (a
flat disjunction, not the three-clause rule); on the two example messages of
the claim it answers as the claim states. -/
theorem fallback_should_respond_spec :
    (∀ content bot_name : String,
      fallback_should_respond content bot_name = true ↔
        (containsSub (trimChars (lowerList content.toList))
            ("hey ".toList ++ lowerList bot_name.toList) = true ∨
         containsSub (trimChars (lowerList content.toList))
            ("hi ".toList ++ lowerList bot_name.toList) = true ∨
         containsSub (trimChars (lowerList content.toList))
            ("hello ".toList ++ lowerList bot_name.toList) = true ∨
         containsSub (trimChars (lowerList content.toList))
            (lowerList bot_name.toList ++ " help".toList) = true ∨
         containsSub (trimChars (lowerList content.toList))
            ("help ".toList ++ lowerList bot_name.toList) = true ∨
         containsSub (trimChars (lowerList content.toList)) (lowerList bot_name.toList) = true ∨
         containsSub (trimChars (lowerList content.toList)) "roblox".toList = true ∨
         containsSub (trimChars (lowerList content.toList)) "luau".toList = true ∨
         containsSub (trimChars (lowerList content.toList)) "script".toList = true ∨
         containsSub (trimChars (lowerList content.toList)) "scripting".toList = true ∨
         containsSub (trimChars (lowerList content.toList)) "help me".toList = true ∨
         containsSub (trimChars (lowerList content.toList)) "can you".toList = true))
    ∧ fallback_should_respond "hey axis can you help me with a script?" "axis" = true
    ∧ fallback_should_respond lunch_example "axis" = false := by
  refine ⟨?_, by decide, by decide⟩
  intro content bot_name
  unfold fallback_should_respond
  simp only [List.any_cons, List.any_nil, Bool.or_eq_true, Bool.or_false]

/-- C5: the stop heuristic answers true exactly when the case-folded trimmed
content equals, starts with (followed by a space) or ends with (preceded by a
space) a farewell phrase, or contains a thanks token with no question mark,
no exclusion substring and length below 50; the three example messages of the
claim evaluate as stated. -/
theorem should_stop_conversation_local_spec :
    (∀ content : String,
      should_stop_conversation_local content = true ↔
        ((∃ p ∈ farewell_phrases,
            lowerList (trimChars content.toList) = p ∨
            (p ++ [' ']).isPrefixOf (lowerList (trimChars content.toList)) = true ∨
            ([' '] ++ p).isSuffixOf (lowerList (trimChars content.toList)) = true) ∨
         ((∃ t ∈ thanks_tokens, containsSub (lowerList (trimChars content.toList)) t = true) ∧
          (lowerList (trimChars content.toList)).contains '?' = false ∧
          (∀ x ∈ stop_exclusions, ¬(containsSub (lowerList (trimChars content.toList)) x = true)) ∧
          (lowerList (trimChars content.toList)).length < 50)))
    ∧ should_stop_conversation_local "bye" = true
    ∧ should_stop_conversation_local "ok thanks" = true
    ∧ should_stop_conversation_local "how do I use thanks DataStore?" = false := by
  refine ⟨?_, by decide, by decide, by decide⟩
  intro content
  unfold should_stop_conversation_local should_stop_core
  simp only [List.any_eq_true, List.any_eq_false, Bool.or_eq_true, Bool.and_eq_true,
    Bool.not_eq_true', Bool.not_eq_true, decide_eq_true_eq, beq_iff_eq]
  constructor
  · rintro (⟨p, hp, hcase⟩ | ⟨⟨⟨ht, hq⟩, hex⟩, hlen⟩)
    · exact Or.inl ⟨p, hp, by tauto⟩
    · exact Or.inr ⟨ht, hq, hex, hlen⟩
  · rintro (⟨p, hp, hcase⟩ | ⟨ht, hq, hex, hlen⟩)
    · exact Or.inl ⟨p, hp, by tauto⟩
    · exact Or.inr ⟨⟨⟨ht, hq⟩, hex⟩, hlen⟩

/-- C6 counterexample: when the send of the stop-classification request fails
(network failure or timeout), GeminiClient::should_stop_conversation
propagates an error through the question-mark operator instead of returning
an Ok value. -/
theorem should_stop_conversation_remote_counterexample :
    (GeminiClient.should_stop_conversation .sendFailure).isOk = false := rfl

/-- C6 amended: should_respond_to_message returns an Ok value for every
outcome of the remote call, falling back to the local heuristic; the remote
should_stop_conversation returns Ok false on a non-success status and an Ok
value on every parsed body, but propagates an error on a send failure or
timeout and on an unparseable body (its caller logs the error and continues
the conversation). -/
theorem classification_outcome_spec :
    (∀ (content bot_name : String) (author_id channel_id : Nat)
        (active : List (Nat × Nat)) (outcome : ClassifyOutcome),
      (GeminiClient.should_respond_to_message content bot_name author_id channel_id
        active outcome).isOk = true)
    ∧ GeminiClient.should_stop_conversation .httpError = .ok false
    ∧ (∀ text, (GeminiClient.should_stop_conversation (.parsed text)).isOk = true)
    ∧ (GeminiClient.should_stop_conversation .sendFailure).isOk = false
    ∧ (GeminiClient.should_stop_conversation .badJson).isOk = false := by
  refine ⟨?_, rfl, fun text => rfl, rfl, rfl⟩
  intro content bot_name author_id channel_id active outcome
  unfold GeminiClient.should_respond_to_message
  split
  · rfl
  · cases outcome <;> rfl

theorem has_active_regRemove (ch u : Nat) (r : Registry) :
    has_active_conversation ch u (regRemove ch r) = false := by
  simp [has_active_conversation, get_regRemove_self]

/-- C7: on a message whose channel holds, after the sweep, an active
conversation owned by the author, a true stop verdict makes the handler
remove the channel's registry entry, send exactly the closure reply, and
terminate without invoking response generation. -/
theorem handler_stop_path (inp : MsgInput) (sR : Bool) (gen : GenOutcome) (dOk : Bool)
    (r : Registry) (hbot : inp.author_is_bot = false)
    (hactive : has_active_conversation inp.channel_id inp.author_id
      (cleanup_expired_conversations inp.now 30 r) = true)
    (hstop : should_stop_conversation_local inp.content = true) :
    get_conversation inp.channel_id (handleMessage inp sR gen dOk r).registry = none
    ∧ (handleMessage inp sR gen dOk r).replies = [closure_reply]
    ∧ (handleMessage inp sR gen dOk r).generationInvoked = false := by
  have hsync : (trimChars inp.content.toList == "!sync_all".toList) = false := by
    rw [beq_eq_false_iff_ne]
    intro heq
    have hfalse : should_stop_conversation_local inp.content = false := by
      unfold should_stop_conversation_local
      rw [heq]
      decide
    rw [hfalse] at hstop
    exact absurd hstop (by simp)
  have hred : handleMessage inp sR gen dOk r =
      ⟨regRemove inp.channel_id (cleanup_expired_conversations inp.now 30 r),
        [closure_reply], false⟩ := by
    unfold handleMessage
    rw [if_neg (by simp [hbot]), if_neg (by simpa using hsync)]
    simp only [hactive, hstop, Bool.true_and, if_true]
  rw [hred]
  exact ⟨get_regRemove_self inp.channel_id _, rfl, rfl⟩

/-- Witness for C7: user 5 owns the live conversation in channel 1 and sends
"bye"; the entry is removed. -/
theorem handler_stop_path_witness :
    get_conversation 1 (handleMessage ⟨false, "bye", 1, 5, 100⟩ false (.err .unknown) true
      [(1, ⟨5, 100⟩)]).registry = none :=
  (handler_stop_path ⟨false, "bye", 1, 5, 100⟩ false (.err .unknown) true [(1, ⟨5, 100⟩)]
    rfl (by decide) (by decide)).1

/-- C8: when the handler decided to respond (no stop taken, conversation
active or classifier verdict positive), a generation failure makes it send
exactly the fixed fallback message of the error's category and evict the
channel's conversation entry, so has_active_conversation is false afterward;
when generation succeeds but delivering the reply fails, the entry is
likewise evicted. -/
theorem handler_failure_evicts (inp : MsgInput) (sR : Bool) (dOk : Bool) (r : Registry)
    (hbot : inp.author_is_bot = false)
    (hsync : (trimChars inp.content.toList == "!sync_all".toList) = false)
    (hnostop : (has_active_conversation inp.channel_id inp.author_id
        (cleanup_expired_conversations inp.now 30 r)
      && should_stop_conversation_local inp.content) = false)
    (hrespond : (has_active_conversation inp.channel_id inp.author_id
        (cleanup_expired_conversations inp.now 30 r) || sR) = true) :
    (∀ cat, (handleMessage inp sR (.err cat) dOk r).replies = [fallback_message cat]
      ∧ has_active_conversation inp.channel_id inp.author_id
          (handleMessage inp sR (.err cat) dOk r).registry = false)
    ∧ (∀ text, dOk = false →
        has_active_conversation inp.channel_id inp.author_id
          (handleMessage inp sR (.ok text) dOk r).registry = false) := by
  constructor
  · intro cat
    unfold handleMessage
    rw [if_neg (by simp [hbot]), if_neg (by simpa using hsync)]
    simp only [hnostop, hrespond, Bool.false_eq_true, if_false, if_true]
    exact ⟨trivial, has_active_regRemove inp.channel_id inp.author_id _⟩
  · intro text hdok
    unfold handleMessage
    rw [if_neg (by simp [hbot]), if_neg (by simpa using hsync)]
    simp only [hnostop, hrespond, hdok, Bool.false_eq_true, if_false, if_true]
    exact has_active_regRemove inp.channel_id inp.author_id _

/-- Witness for C8: with no active conversation, a positive classifier
verdict and a generation timeout, the fallback reply is sent and no
conversation remains. -/
theorem handler_failure_evicts_witness :
    (handleMessage ⟨false, "hello", 1, 5, 0⟩ true (.err .timeout) true []).replies =
      [fallback_message .timeout]
    ∧ has_active_conversation 1 5
        (handleMessage ⟨false, "hello", 1, 5, 0⟩ true (.err .timeout) true []).registry = false :=
  (handler_failure_evicts ⟨false, "hello", 1, 5, 0⟩ true true [] rfl (by decide)
    (by decide) (by decide)).1 .timeout

/-- C10: an inbound message authored by a bot is ignored outright: the
registry is unchanged, no reply is attempted and generation is not invoked. -/
theorem handler_ignores_bot_authors (inp : MsgInput) (sR : Bool) (gen : GenOutcome)
    (dOk : Bool) (r : Registry) (hbot : inp.author_is_bot = true) :
    handleMessage inp sR gen dOk r = ⟨r, [], false⟩ := by
  unfold handleMessage
  rw [if_pos (by simp [hbot])]

/-- Witness for C10 on a concrete bot-authored message. -/
theorem handler_ignores_bot_authors_witness :
    handleMessage ⟨true, "hi", 1, 5, 0⟩ false (.err .unknown) true [(2, ⟨7, 0⟩)] =
      ⟨[(2, ⟨7, 0⟩)], [], false⟩ :=
  handler_ignores_bot_authors ⟨true, "hi", 1, 5, 0⟩ false (.err .unknown) true
    [(2, ⟨7, 0⟩)] rfl

/-- C9: the delivered reply equals the generated text when that text is at
most 2000 characters, and otherwise is the 1997-character truncation with the
three-character truncation marker appended, totalling exactly 2000; the
delivered reply never exceeds 2000 characters. -/
theorem generate_response_text_spec (text : String) :
    ((generate_response_text text).length ≤ 2000)
    ∧ (text.length ≤ 2000 → generate_response_text text = text)
    ∧ (text.length > 2000 →
        (generate_response_text text).length = 2000
        ∧ (generate_response_text text).data.take 1997 = text.data.take 1997
        ∧ (generate_response_text text).data.drop 1997 = "...".data) := by
  unfold generate_response_text
  by_cases h : text.length > 2000
  · rw [if_pos h]
    have hdata : 2000 < text.data.length := h
    have hlen : (text.data.take 1997).length = 1997 := by
      rw [List.length_take]
      omega
    have hmklen : (String.mk (text.data.take 1997 ++ "...".data)).length = 2000 := by
      show (text.data.take 1997 ++ "...".data).length = 2000
      rw [List.length_append, hlen]
      rfl
    refine ⟨by omega, fun hle => by omega, fun _ => ⟨hmklen, ?_, ?_⟩⟩
    · exact List.take_left' hlen
    · exact List.drop_left' hlen
  · rw [if_neg h]
    exact ⟨by omega, fun _ => rfl, fun hgt => absurd hgt h⟩

/-- A 3000-character text, used as the concrete truncation input. -/
def long_text : String := String.mk (List.replicate 3000 'a')

/-- Witness for C9: the 3000-character text is delivered at exactly the
2000-character limit. -/
theorem generate_response_text_spec_witness :
    (generate_response_text long_text).length = 2000 :=
  ((generate_response_text_spec long_text).2.2 (by
    show 2000 < long_text.data.length
    have hrep : long_text.data = List.replicate 3000 'a' := rfl
    rw [hrep, List.length_replicate]
    omega)).1
